import Mathlib

/-!
Verification of the meeting-summariser core pipeline (src-tauri/src/llm):
a shallow embedding of `text_processing.rs`, `summary.rs`, `models.rs`,
`error.rs` and `config.rs`, followed by theorems settling the frozen
claims about the segmenter, the key-facts accumulation, the mechanical
merge and the orchestrator's dispatch and busy-guard behaviour.

Text is modelled as `List Char` (Rust iterates `text.chars()`, i.e.
Unicode scalar values).  Rust byte-based operations (`str::len`,
`str::rfind`) are modelled through an explicit UTF-8 byte-size function.
External effects (transcript store, artifact store, event emission, LLM
calls) are oracles collected in an `Env` record; the pipeline is a
deterministic function of the oracle outcomes, mirroring the Rust control
flow statement by statement.
-/

/-- Number of bytes of the UTF-8 encoding of one Unicode scalar value
(Rust `char::len_utf8`). -/
def charUtf8Size (c : Char) : Nat :=
  if c.val ≤ 0x7F then 1
  else if c.val ≤ 0x7FF then 2
  else if c.val ≤ 0xFFFF then 3
  else 4

/-- UTF-8 byte length of a character list (Rust `str::len` on the
corresponding string). -/
def utf8Len (l : List Char) : Nat :=
  l.foldl (fun n c => n + charUtf8Size c) 0

/-! ### Data model (`models.rs`) -/

structure Attendee where
  id : Nat
  name : String
deriving DecidableEq

structure KeyFact where
  responisible_for_moderation : Option String
  responisible_for_protocol : Option String
  responisible_for_timekeeping : Option String
  attendees : Option (List Attendee)

inductive Topic where
  | mk (title : String) (bullet_points : List String) (sub_topics : Option (List Topic))

structure ToDo where
  assignees : Option (List String)
  task : String

structure FirstSummaryFormat where
  key_facts : KeyFact
  topics : List Topic
  todos : Option (List ToDo)

structure Title where
  emoji : String
  text : String

structure FinalSummaryFormat where
  title : Title
  key_facts : KeyFact
  summary : String
  topics : List Topic
  todos : List ToDo

/-! ### Text segmentation (`text_processing.rs`)

Rust `str::rfind(pat)` returns the BYTE index of the start of the last
occurrence of `pat`.  All patterns used by the segmenter are pure ASCII,
and ASCII bytes never occur inside a multi-byte UTF-8 sequence, so every
byte-level match starts at a character boundary; the byte index of the
last match is therefore the UTF-8 length of the characters preceding the
last character-level match. -/

/-- Index (in characters) of the start of the last occurrence of `pat`
in `l`, if any. -/
def lastMatchIdx (l pat : List Char) : Option Nat :=
  ((List.range (l.length + 1)).filter (fun i => pat.isPrefixOf (l.drop i))).getLast?

/-- Rust `str::rfind` for an ASCII pattern: byte offset of the start of
the last occurrence. -/
def rfindByte (l pat : List Char) : Option Nat :=
  (lastMatchIdx l pat).map (fun i => utf8Len (l.take i))

/-- `find_sentence_end` (text_processing.rs:52-57): byte index of the
last `". "`, else of the last `".\n"`, else `"? "`, else `"! "`. -/
def find_sentence_end (text : List Char) : Option Nat :=
  (rfindByte text ['.', ' ']).orElse fun _ =>
    (rfindByte text ['.', '\n']).orElse fun _ =>
      (rfindByte text ['?', ' ']).orElse fun _ =>
        rfindByte text ['!', ' ']

/-- `find_optimal_break_point` (text_processing.rs:28-50).  The Rust code
mixes byte indices (`rfind`) with character counts (`chars().take`),
which the model reproduces exactly. -/
def find_optimal_break_point (chars : List Char) (start max_end : Nat) : Nat :=
  let chunk_text := (chars.drop start).take (max_end - start)
  match find_sentence_end chunk_text with
  | some sentence_end => start + (chunk_text.take (sentence_end + 1)).length
  | none =>
    match rfindByte chunk_text ['\n', '\n'] with
    | some para_break => start + (chunk_text.take (para_break + 2)).length
    | none =>
      match rfindByte chunk_text [' '] with
      | some space => start + (chunk_text.take (space + 1)).length
      | none => max_end

/-- Rust `str::trim`: strip leading and trailing whitespace. -/
def trimChars (l : List Char) : List Char :=
  ((l.dropWhile Char.isWhitespace).reverse.dropWhile Char.isWhitespace).reverse

/-- One iteration's break position (text_processing.rs:12-18): the window
end, or the optimal break point when the window stops short of the end. -/
def breakPosAt (chars : List Char) (max_chars pos : Nat) : Nat :=
  let end_pos := min (pos + max_chars) chars.length
  if end_pos < chars.length then find_optimal_break_point chars pos end_pos else end_pos

/-- The `while current_pos < chars.len()` loop of `split_text_into_chunks`
(text_processing.rs:11-23), with explicit fuel.  For `max_chars ≥ 1` the
break position strictly advances, so fuel `chars.length - pos` suffices
(proved below); with fuel exhausted the model returns `[]` where the Rust
loop would diverge (which it does only for `max_chars = 0`). -/
def splitLoopF : Nat → List Char → Nat → Nat → List (List Char)
  | 0, _, _, _ => []
  | fuel + 1, chars, max_chars, pos =>
    if pos < chars.length then
      let break_pos := breakPosAt chars max_chars pos
      trimChars ((chars.drop pos).take (break_pos - pos)) ::
        splitLoopF fuel chars max_chars break_pos
    else []

/-- Same loop, collecting the raw (untrimmed) windows `[pos, break_pos)`. -/
def splitWindowsF : Nat → List Char → Nat → Nat → List (List Char)
  | 0, _, _, _ => []
  | fuel + 1, chars, max_chars, pos =>
    if pos < chars.length then
      let break_pos := breakPosAt chars max_chars pos
      (chars.drop pos).take (break_pos - pos) ::
        splitWindowsF fuel chars max_chars break_pos
    else []

/-- `split_text_into_chunks` (text_processing.rs:2-26). -/
def split_text_into_chunks (text : List Char) (max_chars : Nat) : List (List Char) :=
  if text.length ≤ max_chars then [text]
  else splitLoopF text.length text max_chars 0

/-! ### Key-facts accumulation (`summary.rs:276-306`, `update_key_facts`) -/

/-- The attendee-merge loop of `update_key_facts` (summary.rs:290-303):
`existing_ids` starts as the ids of the running list and each appended
attendee's id is pushed onto it, so duplicates inside the incoming list
are also skipped. -/
def mergeAttendeesUpd (existing news : List Attendee) : List Attendee :=
  (news.foldl
    (fun st a =>
      if st.1.contains a.id then st else (st.1 ++ [a.id], st.2 ++ [a]))
    (existing.map Attendee.id, existing)).2

/-- `update_key_facts` (summary.rs:276-306): last-non-null-wins on the
three scalar fields, then the attendee merge (wholesale adoption when the
running list is absent). -/
def update_key_facts (key_facts : KeyFact) (chunk_summary : FirstSummaryFormat) : KeyFact :=
  let kf1 :=
    match chunk_summary.key_facts.responisible_for_moderation with
    | some moderation => { key_facts with responisible_for_moderation := some moderation }
    | none => key_facts
  let kf2 :=
    match chunk_summary.key_facts.responisible_for_protocol with
    | some protocol => { kf1 with responisible_for_protocol := some protocol }
    | none => kf1
  let kf3 :=
    match chunk_summary.key_facts.responisible_for_timekeeping with
    | some timekeeping => { kf2 with responisible_for_timekeeping := some timekeeping }
    | none => kf2
  match chunk_summary.key_facts.attendees with
  | none => kf3
  | some atts =>
    match kf3.attendees with
    | none => { kf3 with attendees := some atts }
    | some existing => { kf3 with attendees := some (mergeAttendeesUpd existing atts) }

/-! ### Mechanical merge (`summary.rs:343-406`, `combine_structured_first_summaries`) -/

/-- The attendee-merge loop of `combine_structured_first_summaries`
(summary.rs:370-389): `existing_ids` is computed once per summary and is
NOT updated as attendees are appended, so an incoming attendee is skipped
only when its id was already present before this summary was folded. -/
def mergeAttendeesCombine (existing news : List Attendee) : List Attendee :=
  existing ++ news.filter (fun a => !((existing.map Attendee.id).contains a.id))

/-- One step of the `for summary in summaries` fold of
`combine_structured_first_summaries` (summary.rs:355-403). -/
def combineStep (combined summary : FirstSummaryFormat) : FirstSummaryFormat :=
  let kf1 :=
    match summary.key_facts.responisible_for_moderation with
    | some moderation => { combined.key_facts with responisible_for_moderation := some moderation }
    | none => combined.key_facts
  let kf2 :=
    match summary.key_facts.responisible_for_protocol with
    | some protocol => { kf1 with responisible_for_protocol := some protocol }
    | none => kf1
  let kf3 :=
    match summary.key_facts.responisible_for_timekeeping with
    | some timekeeping => { kf2 with responisible_for_timekeeping := some timekeeping }
    | none => kf2
  let kf4 :=
    match summary.key_facts.attendees with
    | none => kf3
    | some atts =>
      match kf3.attendees with
      | none => { kf3 with attendees := some atts }
      | some existing => { kf3 with attendees := some (mergeAttendeesCombine existing atts) }
  { key_facts := kf4
    topics := combined.topics ++ summary.topics
    todos :=
      match summary.todos with
      | none => combined.todos
      | some todos =>
        match combined.todos with
        | none => some todos
        | some old => some (old ++ todos) }

/-- The empty `FirstSummaryFormat` the fold starts from (summary.rs:344-353). -/
def emptyFirstSummary : FirstSummaryFormat :=
  { key_facts :=
      { responisible_for_moderation := none
        responisible_for_protocol := none
        responisible_for_timekeeping := none
        attendees := none }
    topics := []
    todos := none }

/-- `combine_structured_first_summaries` (summary.rs:343-406). -/
def combine_structured_first_summaries (summaries : List FirstSummaryFormat) : FirstSummaryFormat :=
  summaries.foldl combineStep emptyFirstSummary

/-! ### Errors, configuration, application state (`error.rs`, `config.rs`, `lib.rs`) -/

inductive LlmError where
  | NetworkError (msg : String)
  | ParseError (msg : String)
  | FileError (msg : String)
  | ConfigError (msg : String)
  | TimeoutError (msg : String)
  | SerializationError (msg : String)

structure LlmConfig where
  use_external_api : Bool
  external_endpoint : String
  external_model : String
  chunk_size : Nat
  max_retries : Nat
  timeout_seconds : Nat

/-- `LlmConfig::default` (config.rs:13-24). -/
def defaultLlmConfig : LlmConfig :=
  { use_external_api := true
    external_endpoint := "http://localhost:11434"
    external_model := "llama3.1"
    chunk_size := 10000
    max_retries := 3
    timeout_seconds := 120 }

/-- The Tauri-managed shared state (lib.rs:17-22). -/
structure AppState where
  currently_transcribing : Option String
  currently_summarizing : Option String
  llm_config : LlmConfig

/-- `ProgressTracker` (progress.rs:4-10); the timing fields are irrelevant
to the claims and are omitted. -/
structure ProgressTracker where
  total_steps : Nat
  current_step : Nat

/-! ### Oracles for one `generate_summary` request

Every external effect of the run is an oracle: its outcome is a function
of the call's distinguishing arguments (event topic, chunk index, chunk
text, current key facts, payload).  The pipeline below consumes these
outcomes exactly where the Rust code performs the corresponding call. -/

structure Env where
  /-- `get_meeting_transcript` outcome (summary.rs:42-44). -/
  transcript_result : Except String (List Char)
  /-- `AppHandle::emit`, keyed by event topic. -/
  emit : String → Except String Unit
  /-- `LlmService::generate_text` for a chunk call (index, chunk, key facts). -/
  llm_chunk : Nat → List Char → KeyFact → Except LlmError String
  /-- `serde_json::from_str::<FirstSummaryFormat>`. -/
  parse_first : String → Except String FirstSummaryFormat
  /-- `LlmService::generate_text` for the final call on the combined summary. -/
  llm_final : FirstSummaryFormat → Except LlmError String
  /-- `serde_json::from_str::<FinalSummaryFormat>`. -/
  parse_final : String → Except String FinalSummaryFormat
  /-- `serde_json::to_string_pretty` of a chunk summary. -/
  serialize_first : FirstSummaryFormat → Except String String
  /-- `FileManager::save_chunk` for chunk `i`. -/
  save_chunk : Nat → Except String Unit
  /-- `FileManager::save_chunk_summary` for chunk `i`. -/
  save_chunk_summary : Nat → Except String Unit
  /-- `FileManager::save_all_chunk_summaries`. -/
  save_all_chunk_summaries : Except String Unit
  /-- `FileManager::save_final_summary`. -/
  save_final_summary : Except String Unit
  /-- `FileManager::save_meeting_metadata`. -/
  save_meeting_metadata : Except String Unit

/-! ### Pipeline (`summary.rs`, `progress.rs`) -/

/-- `check_and_set_summarization_state` (summary.rs:142-157): inside one
critical section, reject when the busy marker is set, otherwise set it;
then emit the start event (an emission failure surfaces as NetworkError
with the marker left set). -/
def check_and_set_summarization_state (env : Env) (st : AppState) (meeting_id : String) :
    AppState × Except LlmError Unit :=
  if st.currently_summarizing.isSome then
    (st, .error (.ConfigError "Another summarization is running"))
  else
    let st' := { st with currently_summarizing := some meeting_id }
    match env.emit "summarization-started" with
    | .error e => (st', .error (.NetworkError ("Failed to emit summarization-started: " ++ e)))
    | .ok _ => (st', .ok ())

/-- `ProgressTracker::start_summarization` (progress.rs:22-32). -/
def start_summarization (env : Env) (_pt : ProgressTracker) : Except String Unit :=
  match env.emit "summarization-started" with
  | .error e => .error ("Failed to emit summarization-started: " ++ e)
  | .ok _ =>
    match env.emit "summarization-chunk-start" with
    | .error e => .error ("Failed to emit summarization-chunk-start: " ++ e)
    | .ok _ => .ok ()

/-- `ProgressTracker::update_progress` (progress.rs:34-51). -/
def update_progress (env : Env) (pt : ProgressTracker) :
    ProgressTracker × Except String Unit :=
  let pt' := { pt with current_step := pt.current_step + 1 }
  match env.emit "summarization-chunk-progress" with
  | .error e => (pt', .error ("Failed to emit chunk progress: " ++ e))
  | .ok _ =>
    match env.emit "llm-progress" with
    | .error e => (pt', .error ("Failed to emit progress: " ++ e))
    | .ok _ => (pt', .ok ())

/-- `ProgressTracker::log_timing_stats` (progress.rs:61-95): returns Ok
immediately when no chunk times were recorded, otherwise emits one stats
message. -/
def log_timing_stats (env : Env) (chunk_times : Nat) : Except String Unit :=
  if chunk_times = 0 then .ok ()
  else
    match env.emit "llm-progress" with
    | .error e => .error ("Failed to emit timing stats: " ++ e)
    | .ok _ => .ok ()

/-- `process_chunk` (summary.rs:254-274): one schema-constrained LLM call
whose prompt embeds the current key facts, then a parse that is fatal on
failure. -/
def process_chunk (env : Env) (i : Nat) (chunk : List Char) (key_facts : KeyFact) :
    Except LlmError FirstSummaryFormat :=
  match env.llm_chunk i chunk key_facts with
  | .error e => .error e
  | .ok chunk_summary_json =>
    match env.parse_first chunk_summary_json with
    | .error e => .error (.ParseError ("Failed to parse chunk summary JSON: " ++ e))
    | .ok s => .ok s

/-- The `for (i, chunk) in chunks.iter().enumerate()` loop of
`summarize_chunks` (summary.rs:206-235): progress update, LLM call and
parse, key-facts fold, then the two side-artifact writes — each failure
is propagated with `?`. -/
def summarize_chunks_loop (env : Env) :
    List (List Char) → Nat → KeyFact → List FirstSummaryFormat → ProgressTracker →
    Except LlmError (List FirstSummaryFormat × ProgressTracker)
  | [], _, _, acc, pt => .ok (acc, pt)
  | chunk :: rest, i, key_facts, acc, pt =>
    match update_progress env pt with
    | (_, .error e) => .error (.NetworkError e)
    | (pt', .ok _) =>
      match process_chunk env i chunk key_facts with
      | .error e => .error e
      | .ok chunk_summary =>
        let key_facts' := update_key_facts key_facts chunk_summary
        match env.save_chunk i with
        | .error e => .error (.FileError e)
        | .ok _ =>
          match env.serialize_first chunk_summary with
          | .error e => .error (.SerializationError ("Failed to serialize chunk summary: " ++ e))
          | .ok _ =>
            match env.save_chunk_summary i with
            | .error e => .error (.FileError e)
            | .ok _ =>
              summarize_chunks_loop env rest (i + 1) key_facts' (acc ++ [chunk_summary]) pt'

/-- `generate_final_summary` (summary.rs:308-341). -/
def generate_final_summary (env : Env) (chunk_summaries : List FirstSummaryFormat)
    (pt : ProgressTracker) : Except LlmError FinalSummaryFormat :=
  match update_progress env pt with
  | (_, .error e) => .error (.NetworkError e)
  | (_, .ok _) =>
    let combined := combine_structured_first_summaries chunk_summaries
    match env.llm_final combined with
    | .error e => .error e
    | .ok final_string =>
      match env.parse_final final_string with
      | .error e => .error (.ParseError ("Failed to parse final summary JSON: " ++ e))
      | .ok final_summary => .ok final_summary

/-- `summarize_chunks` (summary.rs:185-252). -/
def summarize_chunks (env : Env) (chunks : List (List Char)) :
    Except LlmError FinalSummaryFormat :=
  let key_facts : KeyFact :=
    { responisible_for_moderation := none
      responisible_for_protocol := none
      responisible_for_timekeeping := none
      attendees := none }
  let pt : ProgressTracker := { total_steps := chunks.length + 1, current_step := 0 }
  match start_summarization env pt with
  | .error e => .error (.NetworkError e)
  | .ok _ =>
    match summarize_chunks_loop env chunks 0 key_facts [] pt with
    | .error e => .error e
    | .ok (chunk_summaries, pt') =>
      match log_timing_stats env chunks.length with
      | .error e => .error (.NetworkError e)
      | .ok _ =>
        match env.save_all_chunk_summaries with
        | .error e => .error (.FileError e)
        | .ok _ => generate_final_summary env chunk_summaries pt'

/-- `summarize_long_transcript` (summary.rs:159-177); the configuration is
read from the (unchanged) application state by the caller and passed in. -/
def summarize_long_transcript (env : Env) (config : LlmConfig) (transcript : List Char) :
    Except LlmError FinalSummaryFormat :=
  match env.emit "llm-progress" with
  | .error e => .error (.NetworkError ("Failed to emit progress: " ++ e))
  | .ok _ =>
    let chunks := split_text_into_chunks transcript config.chunk_size
    summarize_chunks env chunks

/-- The long-transcript branch of `generate_summary` together with the
code that follows the strategy dispatch (summary.rs:51, 56-80): run the
chunked pipeline, save the final summary and the meeting title (failures
fatal), emit the completion message.  The Rust function finally returns
the markdown rendering of the content; the model returns the structured
content itself, `to_markdown` being outside the claims. -/
def run_long_path (env : Env) (config : LlmConfig) (transcript : List Char) :
    Except LlmError FinalSummaryFormat :=
  match summarize_long_transcript env config transcript with
  | .error e => .error e
  | .ok content =>
    match env.save_final_summary with
    | .error e => .error (.FileError e)
    | .ok _ =>
      match env.save_meeting_metadata with
      | .error e => .error (.FileError e)
      | .ok _ =>
        match env.emit "llm-progress" with
        | .error e => .error (.NetworkError ("Failed to emit progress: " ++ e))
        | .ok _ => .ok content

/-- `generate_summary` (summary.rs:35-81): busy guard, transcript fetch,
empty check, strategy dispatch on `transcript.len() > 10_000` (BYTES).
Note that no exit path of this function resets `currently_summarizing`. -/
def generate_summary (env : Env) (st : AppState) (meeting_id : String) :
    AppState × Except LlmError FinalSummaryFormat :=
  match check_and_set_summarization_state env st meeting_id with
  | (st', .error e) => (st', .error e)
  | (st', .ok _) =>
    match env.transcript_result with
    | .error e => (st', .error (.FileError ("Failed to get transcript: " ++ e)))
    | .ok transcript =>
      if transcript.isEmpty then
        (st', .error (.FileError "No transcript to summarize"))
      else if 10000 < utf8Len transcript then
        (st', run_long_path env st'.llm_config transcript)
      else
        (st', .error (.ConfigError "Direct summarization not implemented yet"))

/-! ### Specification-side definitions (worded from the claims, for the
refinement statements) -/

/-- Code-side per-summary attendee step of the mechanical merge, factored
out of `combineStep` for the statements below. -/
def attStep : Option (List Attendee) → Option (List Attendee) → Option (List Attendee)
  | cur, none => cur
  | none, some atts => some atts
  | some existing, some atts => some (mergeAttendeesCombine existing atts)

/-- Code-side per-summary todo step of the mechanical merge. -/
def todoStep : Option (List ToDo) → Option (List ToDo) → Option (List ToDo)
  | cur, none => cur
  | none, some todos => some todos
  | some old, some todos => some (old ++ todos)

/-- Claim-side union of one incoming attendee list into the running one:
running entries are kept unchanged (so the first-seen name wins on an id
collision) and incoming attendees with a new id are appended in encounter
order. -/
def attendeesUnionSpec : Option (List Attendee) → Option (List Attendee) → Option (List Attendee)
  | old, none => old
  | none, some news => some news
  | some old, some news =>
    some (old ++ news.filter (fun a => !((old.map Attendee.id).contains a.id)))

/-- Claim-side "last non-null wins" over a sequence of updates: the last
`some` of the list, if any. -/
def lastSomeSpec {α : Type} (l : List (Option α)) : Option α :=
  l.reverse.findSome? id

/-- Keep the first occurrence of each attendee id (ids in `seen` are
dropped), preserving encounter order: the claim's "union by id, first-seen
name wins". -/
def dedupeByIdAux (seen : List Nat) : List Attendee → List Attendee
  | [] => []
  | a :: rest =>
    if a.id ∈ seen then dedupeByIdAux seen rest
    else a :: dedupeByIdAux (a.id :: seen) rest

def dedupeById (l : List Attendee) : List Attendee :=
  dedupeByIdAux [] l

/-- Claim-side merged attendees of the whole list: absent only when every
input was absent, otherwise the by-id first-seen union of the inputs'
concatenation. -/
def combinedAttendeesSpec (l : List (Option (List Attendee))) : Option (List Attendee) :=
  if l.all Option.isNone then none else some (dedupeById (l.filterMap id).flatten)

/-- Claim-side merged todos: straight concatenation, present only if at
least one input had todos. -/
def combinedTodosSpec (l : List (Option (List ToDo))) : Option (List ToDo) :=
  if l.all Option.isNone then none else some ((l.filterMap id).flatten)

/-- Attendee-id uniqueness, the data-model invariant of `KeyFacts`
("attendees: set of Attendee unique by id"). -/
def NodupIds : Option (List Attendee) → Prop
  | none => True
  | some l => (l.map Attendee.id).Nodup

instance instDecidableNodupIds : (o : Option (List Attendee)) → Decidable (NodupIds o)
  | none => isTrue trivial
  | some l => inferInstanceAs (Decidable ((l.map Attendee.id).Nodup))

/-- C7's break rule exactly as the claim states it: the LATEST occurrence
in the window of any of the four sentence separators, breaking immediately
after the (two-character) separator; else the latest paragraph break,
after it; else the latest space, after it; else the window edge. -/
def break_point_claimed (chars : List Char) (start max_end : Nat) : Nat :=
  let w := (chars.drop start).take (max_end - start)
  let cands :=
    ([['.', ' '], ['.', '\n'], ['?', ' '], ['!', ' ']]).filterMap (fun pat => lastMatchIdx w pat)
  match cands.max? with
  | some i => start + i + 2
  | none =>
    match lastMatchIdx w ['\n', '\n'] with
    | some i => start + i + 2
    | none =>
      match lastMatchIdx w [' '] with
      | some i => start + i + 1
      | none => max_end

/-- The break rule the code actually implements, stated over character
indices (valid for ASCII windows, where Rust's byte offsets coincide with
character counts): the four separators are tried in the fixed order
`". "`, `".\n"`, `"? "`, `"! "`, each contributing its own latest
occurrence, and a sentence break lands immediately after the terminator
character, BEFORE its trailing space or newline; a paragraph break lands
after both newlines; a space break after the space; otherwise the window
edge. -/
def break_point_amended (chars : List Char) (start max_end : Nat) : Nat :=
  let w := (chars.drop start).take (max_end - start)
  match (lastMatchIdx w ['.', ' ']).orElse fun _ =>
      (lastMatchIdx w ['.', '\n']).orElse fun _ =>
        (lastMatchIdx w ['?', ' ']).orElse fun _ =>
          lastMatchIdx w ['!', ' '] with
  | some i => start + i + 1
  | none =>
    match lastMatchIdx w ['\n', '\n'] with
    | some i => start + i + 2
    | none =>
      match lastMatchIdx w [' '] with
      | some i => start + i + 1
      | none => max_end

/-! ### Concrete fixtures for witnesses and counterexamples -/

def kfEmpty : KeyFact :=
  { responisible_for_moderation := none
    responisible_for_protocol := none
    responisible_for_timekeeping := none
    attendees := none }

def fsFirstA : FirstSummaryFormat :=
  { key_facts := kfEmpty
    topics := [Topic.mk "Topic A" ["point"] none]
    todos := none }

def fsFinalA : FinalSummaryFormat :=
  { title := { emoji := "star", text := "Weekly sync" }
    key_facts := kfEmpty
    summary := "narrative"
    topics := []
    todos := [] }

/-- Clean application state: nothing in flight, default configuration. -/
def st0 : AppState :=
  { currently_transcribing := none
    currently_summarizing := none
    llm_config := defaultLlmConfig }

/-- 2501 four-byte scalar values: 2501 characters but 10004 UTF-8 bytes. -/
def trA : List Char := List.replicate 2501 '𝐀'

/-- 5001 two-byte scalar values: 5001 characters but 10002 UTF-8 bytes. -/
def trB : List Char := List.replicate 5001 'ö'

/-- Oracles for a run in which every external effect succeeds. -/
def envOK : Env :=
  { transcript_result := .ok trA
    emit := fun _ => .ok ()
    llm_chunk := fun _ _ _ => .ok "chunk response"
    parse_first := fun _ => .ok fsFirstA
    llm_final := fun _ => .ok "final response"
    parse_final := fun _ => .ok fsFinalA
    serialize_first := fun _ => .ok "serialized"
    save_chunk := fun _ => .ok ()
    save_chunk_summary := fun _ => .ok ()
    save_all_chunk_summaries := .ok ()
    save_final_summary := .ok ()
    save_meeting_metadata := .ok () }

def envSaveChunkErr (e : String) : Env :=
  { envOK with save_chunk := fun _ => .error e }

def envSaveChunkSummaryErr (e : String) : Env :=
  { envOK with save_chunk_summary := fun _ => .error e }

def envEmitChunkProgressErr (e : String) : Env :=
  { envOK with emit := fun topic =>
      if topic == "summarization-chunk-progress" then .error e else .ok () }

def envTranscript (t : List Char) : Env :=
  { envOK with transcript_result := .ok t }

/-- The two chunk summaries of the claim's attendee-merge example. -/
def csA : FirstSummaryFormat :=
  { key_facts := { kfEmpty with attendees := some [⟨1, "A"⟩] }
    topics := []
    todos := none }

def csB : FirstSummaryFormat :=
  { key_facts := { kfEmpty with attendees := some [⟨1, "B"⟩, ⟨2, "C"⟩] }
    topics := []
    todos := none }

/-- Three partial summaries exercising every field of the mechanical merge. -/
def sum1 : FirstSummaryFormat :=
  { key_facts := { kfEmpty with
      responisible_for_moderation := some "Ann",
      attendees := some [⟨1, "A"⟩] }
    topics := [Topic.mk "T1" ["a"] none, Topic.mk "T2" [] none]
    todos := none }

def sum2 : FirstSummaryFormat :=
  { key_facts := { kfEmpty with attendees := some [⟨1, "B"⟩, ⟨2, "C"⟩] }
    topics := [Topic.mk "T1" ["b"] none]
    todos := some [⟨none, "task 1"⟩] }

def sum3 : FirstSummaryFormat :=
  { key_facts := { kfEmpty with responisible_for_moderation := some "Bob" }
    topics := [Topic.mk "T3" [] none]
    todos := some [⟨some ["A"], "task 2"⟩] }

/-- A whitespace-only source (the repo's `test_whitespace_only` input). -/
def wsOnly : List Char := [' ', ' ', ' ', '\n', '\t', ' ', ' ']

/-- `"X"`, twenty spaces, `"Y"`: not whitespace-only, yet one scan window
is all whitespace. -/
def txtXY : List Char := 'X' :: (List.replicate 20 ' ' ++ ['Y'])

/-- `"A. B? CXXXXXX"`: the window `[0, 8)` contains `". "` at index 1 and
the later `"? "` at index 4. -/
def txtC7 : List Char := ['A', '.', ' ', 'B', '?', ' ', 'C', 'X', 'X', 'X', 'X', 'X', 'X']

/-! ### Helper lemmas: the segmenter -/

theorem window_take_length_le (l : List Char) (k n : Nat) (h : l.length ≤ n) :
    (l.take k).length ≤ n := by
  rw [List.length_take]; exact le_trans inf_le_right h

theorem find_optimal_break_point_le (chars : List Char) (start max_end : Nat)
    (h : start ≤ max_end) :
    find_optimal_break_point chars start max_end ≤ max_end := by
  unfold find_optimal_break_point
  dsimp only
  have hw : ((chars.drop start).take (max_end - start)).length ≤ max_end - start := by
    rw [List.length_take]; exact inf_le_left
  split
  · rename_i i _
    have h2 := window_take_length_le ((chars.drop start).take (max_end - start)) (i + 1) _ hw
    omega
  · split
    · rename_i i _
      have h2 := window_take_length_le ((chars.drop start).take (max_end - start)) (i + 2) _ hw
      omega
    · split
      · rename_i i _
        have h2 := window_take_length_le ((chars.drop start).take (max_end - start)) (i + 1) _ hw
        omega
      · exact le_refl _

theorem lt_find_optimal_break_point (chars : List Char) (start max_end : Nat)
    (h1 : start < max_end) (h2 : max_end ≤ chars.length) :
    start < find_optimal_break_point chars start max_end := by
  unfold find_optimal_break_point
  dsimp only
  have hwlen : ((chars.drop start).take (max_end - start)).length = max_end - start := by
    rw [List.length_take, List.length_drop]
    rw [inf_eq_left]
    omega
  split
  · rename_i i _
    have h3 : 1 ≤ (((chars.drop start).take (max_end - start)).take (i + 1)).length := by
      rw [List.length_take]
      exact le_inf (by omega) (by rw [hwlen]; omega)
    omega
  · split
    · rename_i i _
      have h3 : 1 ≤ (((chars.drop start).take (max_end - start)).take (i + 2)).length := by
        rw [List.length_take]
        exact le_inf (by omega) (by rw [hwlen]; omega)
      omega
    · split
      · rename_i i _
        have h3 : 1 ≤ (((chars.drop start).take (max_end - start)).take (i + 1)).length := by
          rw [List.length_take]
          exact le_inf (by omega) (by rw [hwlen]; omega)
        omega
      · exact h1

theorem lt_breakPosAt (chars : List Char) (max_chars pos : Nat)
    (hmax : 0 < max_chars) (hpos : pos < chars.length) :
    pos < breakPosAt chars max_chars pos := by
  unfold breakPosAt
  dsimp only
  split
  · exact lt_find_optimal_break_point _ _ _ (lt_min (by omega) hpos) (min_le_right _ _)
  · exact lt_min (by omega) hpos

theorem breakPosAt_le (chars : List Char) (max_chars pos : Nat) (hpos : pos ≤ chars.length) :
    breakPosAt chars max_chars pos ≤ pos + max_chars := by
  unfold breakPosAt
  dsimp only
  split
  · exact le_trans
      (find_optimal_break_point_le _ _ _ (le_min (Nat.le_add_right _ _) hpos))
      (min_le_left _ _)
  · exact min_le_left _ _

theorem trimChars_length_le (l : List Char) : (trimChars l).length ≤ l.length := by
  unfold trimChars
  calc (((l.dropWhile Char.isWhitespace).reverse.dropWhile Char.isWhitespace).reverse).length
      = ((l.dropWhile Char.isWhitespace).reverse.dropWhile Char.isWhitespace).length :=
        List.length_reverse _
    _ ≤ (l.dropWhile Char.isWhitespace).reverse.length :=
        (List.dropWhile_sublist _).length_le
    _ = (l.dropWhile Char.isWhitespace).length := List.length_reverse _
    _ ≤ l.length := (List.dropWhile_sublist _).length_le

theorem splitLoopF_nil {chars : List Char} {max_chars pos : Nat} (h : chars.length ≤ pos) :
    ∀ fuel, splitLoopF fuel chars max_chars pos = [] := by
  intro fuel
  cases fuel with
  | zero => rfl
  | succ f => simp [splitLoopF, Nat.not_lt.mpr h]

theorem splitWindowsF_nil {chars : List Char} {max_chars pos : Nat} (h : chars.length ≤ pos) :
    ∀ fuel, splitWindowsF fuel chars max_chars pos = [] := by
  intro fuel
  cases fuel with
  | zero => rfl
  | succ f => simp [splitWindowsF, Nat.not_lt.mpr h]

theorem splitLoopF_congr (chars : List Char) (max_chars : Nat) (hmax : 0 < max_chars) :
    ∀ fuel₁ fuel₂ pos, chars.length - pos ≤ fuel₁ → chars.length - pos ≤ fuel₂ →
      splitLoopF fuel₁ chars max_chars pos = splitLoopF fuel₂ chars max_chars pos := by
  intro f₁
  induction f₁ with
  | zero =>
    intro f₂ pos h1 h2
    rw [splitLoopF_nil (by omega) _, splitLoopF_nil (by omega) _]
  | succ f ih =>
    intro f₂ pos h1 h2
    by_cases hp : pos < chars.length
    · obtain ⟨g, rfl⟩ : ∃ g, f₂ = g + 1 := ⟨f₂ - 1, by omega⟩
      have hbp := lt_breakPosAt chars max_chars pos hmax hp
      simp only [splitLoopF, if_pos hp]
      exact congrArg (List.cons _) (ih g (breakPosAt chars max_chars pos) (by omega) (by omega))
    · rw [splitLoopF_nil (by omega) _, splitLoopF_nil (by omega) _]

theorem splitLoopF_length_le (chars : List Char) (max_chars : Nat) (hmax : 0 < max_chars) :
    ∀ fuel pos c, c ∈ splitLoopF fuel chars max_chars pos → c.length ≤ max_chars := by
  intro fuel
  induction fuel with
  | zero => intro pos c hc; simp [splitLoopF] at hc
  | succ f ih =>
    intro pos c hc
    by_cases hp : pos < chars.length
    · simp only [splitLoopF, if_pos hp] at hc
      rcases List.mem_cons.mp hc with rfl | hc
      · have h1 := trimChars_length_le
          ((chars.drop pos).take (breakPosAt chars max_chars pos - pos))
        have h2 : ((chars.drop pos).take (breakPosAt chars max_chars pos - pos)).length ≤
            breakPosAt chars max_chars pos - pos := by
          rw [List.length_take]; exact inf_le_left
        have h3 := breakPosAt_le chars max_chars pos (le_of_lt hp)
        omega
      · exact ih _ c hc
    · simp [splitLoopF, hp] at hc

theorem splitLoopF_eq_map_trim (chars : List Char) (max_chars : Nat) :
    ∀ fuel pos, splitLoopF fuel chars max_chars pos =
      (splitWindowsF fuel chars max_chars pos).map trimChars := by
  intro fuel
  induction fuel with
  | zero => intro pos; rfl
  | succ f ih =>
    intro pos
    by_cases hp : pos < chars.length
    · simp only [splitLoopF, splitWindowsF, if_pos hp, List.map_cons]
      exact congrArg (List.cons _) (ih _)
    · simp [splitLoopF, splitWindowsF, hp]

theorem splitWindowsF_flatten (chars : List Char) (max_chars : Nat) (hmax : 0 < max_chars) :
    ∀ fuel pos, chars.length - pos ≤ fuel →
      (splitWindowsF fuel chars max_chars pos).flatten = chars.drop pos := by
  intro fuel
  induction fuel with
  | zero =>
    intro pos h
    simp [splitWindowsF, (List.drop_eq_nil_of_le (show chars.length ≤ pos by omega))]
  | succ f ih =>
    intro pos h
    by_cases hp : pos < chars.length
    · have hbp := lt_breakPosAt chars max_chars pos hmax hp
      simp only [splitWindowsF, if_pos hp, List.flatten_cons]
      rw [ih (breakPosAt chars max_chars pos) (by omega)]
      have hdd : chars.drop (breakPosAt chars max_chars pos) =
          (chars.drop pos).drop (breakPosAt chars max_chars pos - pos) := by
        rw [List.drop_drop]
        congr 1
        omega
      rw [hdd, List.take_append_drop]
    · simp [splitWindowsF, hp,
        (List.drop_eq_nil_of_le (show chars.length ≤ pos by omega))]

/-! ### Claim theorems: segmenter -/

/-- C6: for every text and every `max_chars > 0`, every chunk returned by
`split_text_into_chunks` has at most `max_chars` characters, counting
Unicode scalar values.  (The embedding operates on `List Char`, i.e. whole
scalar values, so no multi-byte codepoint can be split by construction.) -/
theorem split_text_into_chunks_length_le (text : List Char) (max_chars : Nat)
    (hmax : 0 < max_chars) :
    ∀ c ∈ split_text_into_chunks text max_chars, c.length ≤ max_chars := by
  intro c hc
  by_cases h : text.length ≤ max_chars
  · unfold split_text_into_chunks at hc
    rw [if_pos h] at hc
    simp at hc
    subst hc
    exact h
  · unfold split_text_into_chunks at hc
    rw [if_neg h] at hc
    exact splitLoopF_length_le text max_chars hmax _ 0 c hc

theorem split_text_into_chunks_length_le_witness :
    (['A', '.'] : List Char).length ≤ 8 :=
  split_text_into_chunks_length_le txtC7 8 (by decide) ['A', '.'] (by decide)

/-- C8: at the repo's own `test_whitespace_only` input the code returns
the whitespace-only source verbatim as the single chunk, not its trimmed
form `""` that both the claim and the test expect. -/
theorem split_whitespace_only_verbatim :
    split_text_into_chunks wsOnly 100 = [wsOnly] ∧ trimChars wsOnly = [] ∧ wsOnly ≠ [] :=
  ⟨rfl, rfl, by decide⟩

/-- C9 counterexample: `txtXY` = `"X" ++ 20 spaces ++ "Y"` is neither
empty nor whitespace-only, yet `split_text_into_chunks txtXY 10` returns
an empty chunk (the all-whitespace middle window trims to nothing). -/
theorem split_not_whitespace_only_empty_chunk :
    [] ∈ split_text_into_chunks txtXY 10 ∧ trimChars txtXY ≠ [] ∧ txtXY ≠ [] := by
  decide

/-- C9 amended: the raw (untrimmed) windows taken by the scan partition
the text exactly — their concatenation is the text, no character skipped
or duplicated — and every returned chunk is the trim of its window (the
single-window case returns the text verbatim); however a chunk may be
empty even when the text is not whitespace-only. -/
theorem split_text_into_chunks_partition (text : List Char) (max_chars : Nat)
    (hmax : 0 < max_chars) :
    (text.length ≤ max_chars → split_text_into_chunks text max_chars = [text]) ∧
    (max_chars < text.length →
      split_text_into_chunks text max_chars =
        (splitWindowsF text.length text max_chars 0).map trimChars ∧
      (splitWindowsF text.length text max_chars 0).flatten = text) := by
  constructor
  · intro h
    unfold split_text_into_chunks
    rw [if_pos h]
  · intro h
    constructor
    · unfold split_text_into_chunks
      rw [if_neg (by omega)]
      exact splitLoopF_eq_map_trim text max_chars text.length 0
    · simpa using splitWindowsF_flatten text max_chars hmax text.length 0 (by omega)

theorem split_text_into_chunks_partition_witness :
    split_text_into_chunks txtXY 10 = (splitWindowsF txtXY.length txtXY 10 0).map trimChars ∧
    (splitWindowsF txtXY.length txtXY 10 0).flatten = txtXY :=
  (split_text_into_chunks_partition txtXY 10 (by decide)).2 (by decide)

/-- C10: the segmenter loop terminates for `max_chars ≥ 1`: every break
position (each branch of `find_optimal_break_point`, and the window edge)
is strictly greater than the cursor, so the cursor strictly advances and
fuel `chars.length - pos` is enough — any larger fuel gives the same
result. -/
theorem split_text_into_chunks_terminates (chars : List Char) (max_chars pos : Nat)
    (hmax : 0 < max_chars) (hpos : pos < chars.length) :
    pos < breakPosAt chars max_chars pos ∧
    ∀ fuel, chars.length - pos ≤ fuel →
      splitLoopF fuel chars max_chars pos = splitLoopF (chars.length - pos) chars max_chars pos :=
  ⟨lt_breakPosAt chars max_chars pos hmax hpos,
   fun fuel hf => splitLoopF_congr chars max_chars hmax fuel _ pos hf (le_refl _)⟩

theorem split_text_into_chunks_terminates_witness :
    0 < breakPosAt txtC7 8 0 ∧ splitLoopF 20 txtC7 8 0 = splitLoopF 13 txtC7 8 0 := by
  have h := split_text_into_chunks_terminates txtC7 8 0 (by decide) (by decide)
  exact ⟨h.1, h.2 20 (by decide)⟩

/-! ### Helper lemmas: byte offsets vs character indices -/

theorem utf8Len_cons (c : Char) (t : List Char) :
    utf8Len (c :: t) = charUtf8Size c + utf8Len t := by
  have haux : ∀ (u : List Char) (n : Nat),
      u.foldl (fun a d => a + charUtf8Size d) n =
        n + u.foldl (fun a d => a + charUtf8Size d) 0 := by
    intro u
    induction u with
    | nil => intro n; simp
    | cons d v ih =>
      intro n
      simp only [List.foldl_cons]
      rw [ih, ih (0 + charUtf8Size d)]
      omega
  simp only [utf8Len, List.foldl_cons]
  rw [haux t (0 + charUtf8Size c)]
  omega

theorem utf8Len_eq_length {l : List Char} (h : ∀ c ∈ l, charUtf8Size c = 1) :
    utf8Len l = l.length := by
  induction l with
  | nil => rfl
  | cons c t ih =>
    rw [utf8Len_cons, h c (List.mem_cons_self c t),
      ih (fun d hd => h d (List.mem_cons_of_mem c hd)), List.length_cons]
    omega

theorem lastMatchIdx_le (l pat : List Char) {i : Nat} (h : lastMatchIdx l pat = some i) :
    i ≤ l.length ∧ pat.isPrefixOf (l.drop i) = true := by
  unfold lastMatchIdx at h
  have hmem := List.mem_of_mem_getLast? h
  rw [List.mem_filter] at hmem
  obtain ⟨hr, hp⟩ := hmem
  rw [List.mem_range] at hr
  exact ⟨by omega, hp⟩

theorem lastMatchIdx_add_len_le (l pat : List Char) {i : Nat}
    (h : lastMatchIdx l pat = some i) : i + pat.length ≤ l.length := by
  obtain ⟨hi, hp⟩ := lastMatchIdx_le l pat h
  have hpre := (List.isPrefixOf_iff_prefix.mp hp).length_le
  rw [List.length_drop] at hpre
  omega

theorem rfindByte_ascii (l pat : List Char) (h : ∀ c ∈ l, charUtf8Size c = 1) :
    rfindByte l pat = lastMatchIdx l pat := by
  unfold rfindByte
  cases hm : lastMatchIdx l pat with
  | none => rfl
  | some i =>
    have hi := (lastMatchIdx_le l pat hm).1
    have hlen : utf8Len (l.take i) = (l.take i).length :=
      utf8Len_eq_length (fun c hc => h c (List.take_subset _ _ hc))
    show some (utf8Len (l.take i)) = some i
    rw [hlen, List.length_take]
    exact congrArg some (inf_eq_left.mpr hi)

theorem find_sentence_end_ascii (w : List Char) (h : ∀ c ∈ w, charUtf8Size c = 1) :
    find_sentence_end w =
      ((lastMatchIdx w ['.', ' ']).orElse fun _ =>
        (lastMatchIdx w ['.', '\n']).orElse fun _ =>
          (lastMatchIdx w ['?', ' ']).orElse fun _ =>
            lastMatchIdx w ['!', ' ']) := by
  unfold find_sentence_end
  rw [rfindByte_ascii _ _ h, rfindByte_ascii _ _ h, rfindByte_ascii _ _ h,
    rfindByte_ascii _ _ h]

theorem sentence_chain_bound {w : List Char} {i : Nat}
    (h : ((lastMatchIdx w ['.', ' ']).orElse fun _ =>
        (lastMatchIdx w ['.', '\n']).orElse fun _ =>
          (lastMatchIdx w ['?', ' ']).orElse fun _ =>
            lastMatchIdx w ['!', ' ']) = some i) :
    i + 2 ≤ w.length := by
  cases h1 : lastMatchIdx w ['.', ' '] with
  | some j =>
    rw [h1] at h
    have h' : some j = some i := h
    obtain rfl : j = i := Option.some.inj h'
    simpa using lastMatchIdx_add_len_le w ['.', ' '] h1
  | none =>
    rw [h1] at h
    have hc2 : ((lastMatchIdx w ['.', '\n']).orElse fun _ =>
        (lastMatchIdx w ['?', ' ']).orElse fun _ =>
          lastMatchIdx w ['!', ' ']) = some i := h
    cases h2 : lastMatchIdx w ['.', '\n'] with
    | some j =>
      rw [h2] at hc2
      have h' : some j = some i := hc2
      obtain rfl : j = i := Option.some.inj h'
      simpa using lastMatchIdx_add_len_le w ['.', '\n'] h2
    | none =>
      rw [h2] at hc2
      have hc3 : ((lastMatchIdx w ['?', ' ']).orElse fun _ =>
          lastMatchIdx w ['!', ' ']) = some i := hc2
      cases h3 : lastMatchIdx w ['?', ' '] with
      | some j =>
        rw [h3] at hc3
        have h' : some j = some i := hc3
        obtain rfl : j = i := Option.some.inj h'
        simpa using lastMatchIdx_add_len_le w ['?', ' '] h3
      | none =>
        rw [h3] at hc3
        have h4 : lastMatchIdx w ['!', ' '] = some i := hc3
        simpa using lastMatchIdx_add_len_le w ['!', ' '] h4

/-! ### Claim theorems: break-point selection (C7) -/

/-- C7 counterexample: in the window `[0, 8)` of `"A. B? CXXXXXX"` the
latest sentence terminator is `"? "` (so the claim's rule breaks at 6,
immediately after that separator), but the code prefers the earlier
`". "` because `". "` is searched before `"? "`, and it breaks at 2,
after the `'.'` and before its space. -/
theorem find_optimal_break_point_priority_counterexample :
    find_optimal_break_point txtC7 0 8 = 2 ∧ break_point_claimed txtC7 0 8 = 6 ∧
      find_optimal_break_point txtC7 0 8 ≠ break_point_claimed txtC7 0 8 := by
  decide

/-- C7 amended: on ASCII windows (where Rust's byte offsets coincide with
character counts) the break position is: the latest `". "` — else the
latest `".\n"`, else `"? "`, else `"! "` — breaking immediately after the
terminator character and before its trailing space or newline; else the
latest `"\n\n"`, breaking after both newlines; else the latest space,
breaking after it; else the window edge. -/
theorem find_optimal_break_point_ascii (chars : List Char) (start max_end : Nat)
    (hascii : ∀ c ∈ chars, charUtf8Size c = 1) :
    find_optimal_break_point chars start max_end = break_point_amended chars start max_end := by
  unfold find_optimal_break_point break_point_amended
  dsimp only
  have hws : ∀ c ∈ (chars.drop start).take (max_end - start), charUtf8Size c = 1 :=
    fun c hc => hascii c (List.drop_subset _ _ (List.take_subset _ _ hc))
  rw [find_sentence_end_ascii _ hws, rfindByte_ascii _ _ hws, rfindByte_ascii _ _ hws]
  cases hse : ((lastMatchIdx ((chars.drop start).take (max_end - start)) ['.', ' ']).orElse fun _ =>
      (lastMatchIdx ((chars.drop start).take (max_end - start)) ['.', '\n']).orElse fun _ =>
        (lastMatchIdx ((chars.drop start).take (max_end - start)) ['?', ' ']).orElse fun _ =>
          lastMatchIdx ((chars.drop start).take (max_end - start)) ['!', ' ']) with
  | some i =>
    have hb := sentence_chain_bound hse
    dsimp only
    rw [List.length_take, inf_eq_left.mpr (by omega : i + 1 ≤
      ((chars.drop start).take (max_end - start)).length)]
    omega
  | none =>
    cases hpb : lastMatchIdx ((chars.drop start).take (max_end - start)) ['\n', '\n'] with
    | some i =>
      have hb : i + 2 ≤ ((chars.drop start).take (max_end - start)).length := by
        simpa using lastMatchIdx_add_len_le _ ['\n', '\n'] hpb
      dsimp only
      rw [List.length_take, inf_eq_left.mpr (by omega : i + 2 ≤
        ((chars.drop start).take (max_end - start)).length)]
      omega
    | none =>
      cases hsp : lastMatchIdx ((chars.drop start).take (max_end - start)) [' '] with
      | some i =>
        have hb : i + 1 ≤ ((chars.drop start).take (max_end - start)).length := by
          simpa using lastMatchIdx_add_len_le _ [' '] hsp
        dsimp only
        rw [List.length_take, inf_eq_left.mpr (by omega : i + 1 ≤
          ((chars.drop start).take (max_end - start)).length)]
        omega
      | none => rfl

theorem find_optimal_break_point_ascii_witness :
    find_optimal_break_point txtC7 0 8 = break_point_amended txtC7 0 8 :=
  find_optimal_break_point_ascii txtC7 0 8 (by decide)

/-! ### Helper lemmas: key-facts accumulation (C4) -/

theorem contains_append_right_false {l1 l2 : List Nat} {y : Nat} (h : ∀ x ∈ l2, y ≠ x) :
    (l1 ++ l2).contains y = l1.contains y := by
  have e1 : ((l1 ++ l2).contains y = true) ↔ y ∈ l1 ++ l2 := List.elem_iff
  have e2 : (l1.contains y = true) ↔ y ∈ l1 := List.elem_iff
  rw [Bool.eq_iff_iff, e1, e2, List.mem_append]
  constructor
  · rintro (h1 | h2)
    · exact h1
    · exact absurd rfl (h _ h2)
  · exact Or.inl

theorem update_key_facts_eq (kf : KeyFact) (cs : FirstSummaryFormat) :
    update_key_facts kf cs =
      { responisible_for_moderation :=
          cs.key_facts.responisible_for_moderation.or kf.responisible_for_moderation
        responisible_for_protocol :=
          cs.key_facts.responisible_for_protocol.or kf.responisible_for_protocol
        responisible_for_timekeeping :=
          cs.key_facts.responisible_for_timekeeping.or kf.responisible_for_timekeeping
        attendees :=
          match cs.key_facts.attendees, kf.attendees with
          | none, o => o
          | some news, none => some news
          | some news, some existing => some (mergeAttendeesUpd existing news) } := by
  obtain ⟨km, kp, kt, ka⟩ := kf
  obtain ⟨⟨m, p, t, a⟩, tops, tds⟩ := cs
  cases m <;> cases p <;> cases t <;> cases a <;> cases ka <;> rfl

theorem mergeAttendeesUpd_eq_filter :
    ∀ (news existing : List Attendee), (news.map Attendee.id).Nodup →
      mergeAttendeesUpd existing news =
        existing ++ news.filter (fun a => !((existing.map Attendee.id).contains a.id)) := by
  intro news
  induction news with
  | nil => intro existing h; simp [mergeAttendeesUpd]
  | cons a rest ih =>
    intro existing h
    rw [List.map_cons, List.nodup_cons] at h
    obtain ⟨ha, hrest⟩ := h
    cases hc : (existing.map Attendee.id).contains a.id with
    | true =>
      have hstep : mergeAttendeesUpd existing (a :: rest) = mergeAttendeesUpd existing rest := by
        simp only [mergeAttendeesUpd, List.foldl_cons, hc, if_true]
      have hpa : ¬ ((fun x => !((existing.map Attendee.id).contains x.id)) a = true) := by
        show ¬ ((!((existing.map Attendee.id).contains a.id)) = true)
        rw [hc]
        decide
      rw [hstep, ih existing hrest,
        @List.filter_cons_of_neg _ (fun x => !((existing.map Attendee.id).contains x.id))
          a rest hpa]
    | false =>
      have hstep : mergeAttendeesUpd existing (a :: rest) =
          mergeAttendeesUpd (existing ++ [a]) rest := by
        simp only [mergeAttendeesUpd, List.foldl_cons, hc, if_false, Bool.false_eq_true,
          List.map_append, List.map_cons, List.map_nil]
      have hpa : (fun x => !((existing.map Attendee.id).contains x.id)) a = true := by
        show (!((existing.map Attendee.id).contains a.id)) = true
        rw [hc]
        decide
      rw [hstep, ih (existing ++ [a]) hrest,
        @List.filter_cons_of_pos _ (fun x => !((existing.map Attendee.id).contains x.id))
          a rest hpa,
        List.append_assoc, List.singleton_append]
      congr 2
      apply List.filter_congr
      intro b hb
      have hbne : Attendee.id b ≠ a.id := fun he =>
        ha (he ▸ List.mem_map_of_mem Attendee.id hb)
      show (!(((existing ++ [a]).map Attendee.id).contains b.id)) =
        (!((existing.map Attendee.id).contains b.id))
      rw [List.map_append, List.map_cons, List.map_nil,
        contains_append_right_false (by
          intro x hx
          rw [List.mem_singleton] at hx
          subst hx
          exact hbne)]

/-- C4: one fold step of the key-facts accumulation sets each scalar field
to the chunk's value exactly when that value is non-null
(last-non-null-wins) and unions attendees by id: first-seen name kept on a
collision, new ids appended in encounter order.  The hypothesis is the
data-model invariant that the chunk's attendee ids are unique. -/
theorem update_key_facts_spec (kf : KeyFact) (cs : FirstSummaryFormat)
    (h : NodupIds cs.key_facts.attendees) :
    (update_key_facts kf cs).responisible_for_moderation =
      cs.key_facts.responisible_for_moderation.or kf.responisible_for_moderation ∧
    (update_key_facts kf cs).responisible_for_protocol =
      cs.key_facts.responisible_for_protocol.or kf.responisible_for_protocol ∧
    (update_key_facts kf cs).responisible_for_timekeeping =
      cs.key_facts.responisible_for_timekeeping.or kf.responisible_for_timekeeping ∧
    (update_key_facts kf cs).attendees =
      attendeesUnionSpec kf.attendees cs.key_facts.attendees := by
  rw [update_key_facts_eq]
  refine ⟨rfl, rfl, rfl, ?_⟩
  cases hca : cs.key_facts.attendees with
  | none => cases kf.attendees <;> rfl
  | some news =>
    rw [hca] at h
    have hnd : (news.map Attendee.id).Nodup := h
    cases hka : kf.attendees with
    | none => rfl
    | some existing => exact congrArg some (mergeAttendeesUpd_eq_filter news existing hnd)

/-- C4 witness: folding the claim's two example chunks
`[{attendees: [{1,"A"}]}, {attendees: [{1,"B"},{2,"C"}]}]` from empty
KeyFacts yields attendees `[{1,"A"},{2,"C"}]`. -/
theorem update_key_facts_spec_witness :
    (update_key_facts (update_key_facts kfEmpty csA) csB).attendees =
      some [⟨1, "A"⟩, ⟨2, "C"⟩] := by
  have h := (update_key_facts_spec (update_key_facts kfEmpty csA) csB (by decide)).2.2.2
  rw [h]
  rfl

/-! ### Helper lemmas: mechanical merge (C5) -/

theorem combineStep_eq (acc s : FirstSummaryFormat) :
    combineStep acc s =
      { key_facts :=
          { responisible_for_moderation :=
              s.key_facts.responisible_for_moderation.or acc.key_facts.responisible_for_moderation
            responisible_for_protocol :=
              s.key_facts.responisible_for_protocol.or acc.key_facts.responisible_for_protocol
            responisible_for_timekeeping :=
              s.key_facts.responisible_for_timekeeping.or
                acc.key_facts.responisible_for_timekeeping
            attendees := attStep acc.key_facts.attendees s.key_facts.attendees }
        topics := acc.topics ++ s.topics
        todos := todoStep acc.todos s.todos } := by
  obtain ⟨⟨am, ap, ak, aa⟩, atops, atds⟩ := acc
  obtain ⟨⟨m, p, t, a⟩, tops, tds⟩ := s
  cases m <;> cases p <;> cases t <;> cases a <;> cases aa <;> cases tds <;> cases atds <;> rfl

theorem combine_foldl_topics (ss : List FirstSummaryFormat) :
    ∀ acc, (ss.foldl combineStep acc).topics =
      acc.topics ++ (ss.map (fun s => s.topics)).flatten := by
  induction ss with
  | nil => intro acc; simp
  | cons s rest ih =>
    intro acc
    rw [List.foldl_cons, ih, combineStep_eq, List.map_cons, List.flatten_cons,
      ← List.append_assoc]

theorem combine_foldl_moderation (ss : List FirstSummaryFormat) :
    ∀ acc, (ss.foldl combineStep acc).key_facts.responisible_for_moderation =
      (ss.map (fun s => s.key_facts.responisible_for_moderation)).foldl
        (fun cur o => o.or cur) acc.key_facts.responisible_for_moderation := by
  induction ss with
  | nil => intro acc; rfl
  | cons s rest ih =>
    intro acc
    rw [List.foldl_cons, ih, combineStep_eq, List.map_cons, List.foldl_cons]

theorem combine_foldl_protocol (ss : List FirstSummaryFormat) :
    ∀ acc, (ss.foldl combineStep acc).key_facts.responisible_for_protocol =
      (ss.map (fun s => s.key_facts.responisible_for_protocol)).foldl
        (fun cur o => o.or cur) acc.key_facts.responisible_for_protocol := by
  induction ss with
  | nil => intro acc; rfl
  | cons s rest ih =>
    intro acc
    rw [List.foldl_cons, ih, combineStep_eq, List.map_cons, List.foldl_cons]

theorem combine_foldl_timekeeping (ss : List FirstSummaryFormat) :
    ∀ acc, (ss.foldl combineStep acc).key_facts.responisible_for_timekeeping =
      (ss.map (fun s => s.key_facts.responisible_for_timekeeping)).foldl
        (fun cur o => o.or cur) acc.key_facts.responisible_for_timekeeping := by
  induction ss with
  | nil => intro acc; rfl
  | cons s rest ih =>
    intro acc
    rw [List.foldl_cons, ih, combineStep_eq, List.map_cons, List.foldl_cons]

theorem combine_foldl_attendees (ss : List FirstSummaryFormat) :
    ∀ acc, (ss.foldl combineStep acc).key_facts.attendees =
      (ss.map (fun s => s.key_facts.attendees)).foldl attStep acc.key_facts.attendees := by
  induction ss with
  | nil => intro acc; rfl
  | cons s rest ih =>
    intro acc
    rw [List.foldl_cons, ih, combineStep_eq, List.map_cons, List.foldl_cons]

theorem combine_foldl_todos (ss : List FirstSummaryFormat) :
    ∀ acc, (ss.foldl combineStep acc).todos =
      (ss.map (fun s => s.todos)).foldl todoStep acc.todos := by
  induction ss with
  | nil => intro acc; rfl
  | cons s rest ih =>
    intro acc
    rw [List.foldl_cons, ih, combineStep_eq, List.map_cons, List.foldl_cons]

theorem foldl_or_eq_lastSome {α : Type} : ∀ (l : List (Option α)) (init : Option α),
    l.foldl (fun cur o => o.or cur) init = (lastSomeSpec l).or init := by
  intro l
  induction l with
  | nil => intro init; rfl
  | cons o rest ih =>
    intro init
    rw [List.foldl_cons, ih]
    show (lastSomeSpec rest).or (o.or init) = (lastSomeSpec (o :: rest)).or init
    unfold lastSomeSpec
    rw [List.reverse_cons, List.findSome?_append]
    cases hr : rest.reverse.findSome? id with
    | some v => rfl
    | none => cases o with
      | some a => rfl
      | none => rfl

theorem foldl_todoStep_some : ∀ (l : List (Option (List ToDo))) (old : List ToDo),
    l.foldl todoStep (some old) = some (old ++ (l.filterMap id).flatten) := by
  intro l
  induction l with
  | nil => intro old; simp
  | cons o rest ih =>
    intro old
    cases o with
    | none =>
      rw [List.foldl_cons]
      show rest.foldl todoStep (some old) = _
      rw [ih]
      simp [List.filterMap_cons]
    | some ts =>
      rw [List.foldl_cons]
      show rest.foldl todoStep (some (old ++ ts)) = _
      rw [ih]
      simp [List.filterMap_cons, List.append_assoc]

theorem foldl_todoStep_none : ∀ (l : List (Option (List ToDo))),
    l.foldl todoStep none = combinedTodosSpec l := by
  intro l
  induction l with
  | nil => rfl
  | cons o rest ih =>
    cases o with
    | none =>
      rw [List.foldl_cons]
      show rest.foldl todoStep none = _
      rw [ih]
      unfold combinedTodosSpec
      simp only [List.all_cons, List.filterMap_cons, Option.isNone_none, Bool.true_and, id_eq]
    | some ts =>
      rw [List.foldl_cons]
      show rest.foldl todoStep (some ts) = _
      rw [foldl_todoStep_some]
      unfold combinedTodosSpec
      simp [List.all_cons, List.filterMap_cons]

theorem dedupeByIdAux_congr : ∀ (l : List Attendee) (s1 s2 : List Nat),
    (∀ i, i ∈ s1 ↔ i ∈ s2) → dedupeByIdAux s1 l = dedupeByIdAux s2 l := by
  intro l
  induction l with
  | nil => intro s1 s2 h; rfl
  | cons a rest ih =>
    intro s1 s2 h
    unfold dedupeByIdAux
    by_cases hm : a.id ∈ s1
    · rw [if_pos hm, if_pos ((h a.id).mp hm)]
      exact ih s1 s2 h
    · rw [if_neg hm, if_neg (fun hc => hm ((h a.id).mpr hc))]
      congr 1
      apply ih
      intro i
      simp only [List.mem_cons]
      exact or_congr Iff.rfl (h i)

theorem dedupeByIdAux_cons (seen : List Nat) (a : Attendee) (l : List Attendee) :
    dedupeByIdAux seen (a :: l) =
      if a.id ∈ seen then dedupeByIdAux seen l else a :: dedupeByIdAux (a.id :: seen) l := rfl

theorem dedupeByIdAux_append : ∀ (l1 l2 : List Attendee) (seen : List Nat),
    dedupeByIdAux seen (l1 ++ l2) =
      dedupeByIdAux seen l1 ++
        dedupeByIdAux ((dedupeByIdAux seen l1).map Attendee.id ++ seen) l2 := by
  intro l1
  induction l1 with
  | nil =>
    intro l2 seen
    simp [dedupeByIdAux]
  | cons a rest ih =>
    intro l2 seen
    rw [List.cons_append, dedupeByIdAux_cons, dedupeByIdAux_cons]
    by_cases hm : a.id ∈ seen
    · rw [if_pos hm, if_pos hm]
      exact ih l2 seen
    · rw [if_neg hm, if_neg hm, List.cons_append, ih l2 (a.id :: seen)]
      congr 1
      congr 1
      apply dedupeByIdAux_congr
      intro i
      simp only [List.map_cons, List.mem_cons, List.mem_append]
      tauto

theorem dedupeByIdAux_eq_filter : ∀ (l : List Attendee) (seen : List Nat),
    (l.map Attendee.id).Nodup →
    dedupeByIdAux seen l = l.filter (fun a => !(seen.contains a.id)) := by
  intro l
  induction l with
  | nil => intro seen h; rfl
  | cons a rest ih =>
    intro seen h
    rw [List.map_cons, List.nodup_cons] at h
    obtain ⟨ha, hrest⟩ := h
    rw [dedupeByIdAux_cons]
    by_cases hm : a.id ∈ seen
    · rw [if_pos hm]
      have hct : seen.contains a.id = true := List.elem_iff.mpr hm
      have hpa : ¬ ((fun x => !(seen.contains x.id)) a = true) := by
        show ¬ ((!(seen.contains a.id)) = true)
        rw [hct]
        decide
      rw [@List.filter_cons_of_neg _ (fun x => !(seen.contains x.id)) a rest hpa]
      exact ih seen hrest
    · rw [if_neg hm]
      have hcf : seen.contains a.id = false := by
        cases hcc : seen.contains a.id with
        | false => rfl
        | true => exact absurd (List.elem_iff.mp hcc) hm
      have hpa : (fun x => !(seen.contains x.id)) a = true := by
        show (!(seen.contains a.id)) = true
        rw [hcf]
        decide
      rw [@List.filter_cons_of_pos _ (fun x => !(seen.contains x.id)) a rest hpa]
      congr 1
      rw [ih (a.id :: seen) hrest]
      apply List.filter_congr
      intro b hb
      have hbne : Attendee.id b ≠ a.id := fun he =>
        ha (he ▸ List.mem_map_of_mem Attendee.id hb)
      show (!((a.id :: seen).contains b.id)) = (!(seen.contains b.id))
      rw [List.contains_cons,
        show (Attendee.id b == a.id) = false from beq_eq_false_iff_ne.mpr hbne,
        Bool.false_or]

theorem nodup_filter_map_id {p : Attendee → Bool} {l : List Attendee}
    (h : (l.map Attendee.id).Nodup) : ((l.filter p).map Attendee.id).Nodup :=
  ((List.filter_sublist l).map Attendee.id).nodup h

theorem attStep_foldl_some : ∀ (opts : List (Option (List Attendee))) (acc : List Attendee),
    (acc.map Attendee.id).Nodup →
    (∀ l, some l ∈ opts → (l.map Attendee.id).Nodup) →
    opts.foldl attStep (some acc) =
      some (acc ++ dedupeByIdAux (acc.map Attendee.id) (opts.filterMap id).flatten) := by
  intro opts
  induction opts with
  | nil =>
    intro acc hacc hopts
    simp [dedupeByIdAux]
  | cons o rest ih =>
    intro acc hacc hopts
    cases o with
    | none =>
      rw [List.foldl_cons]
      show rest.foldl attStep (some acc) = _
      rw [ih acc hacc (fun l hl => hopts l (List.mem_cons_of_mem _ hl))]
      simp [List.filterMap_cons]
    | some news =>
      have hnews : (news.map Attendee.id).Nodup := hopts news (List.mem_cons_self _ _)
      have hf : mergeAttendeesCombine acc news =
          acc ++ news.filter (fun a => !((acc.map Attendee.id).contains a.id)) := rfl
      have hnd : (((acc ++ news.filter
          (fun a => !((acc.map Attendee.id).contains a.id))).map Attendee.id)).Nodup := by
        rw [List.map_append, List.nodup_append]
        refine ⟨hacc, nodup_filter_map_id hnews, ?_⟩
        intro i hi hif
        rw [List.mem_map] at hi hif
        obtain ⟨x, hx, hxe⟩ := hi
        obtain ⟨b, hb, hbe⟩ := hif
        rw [List.mem_filter] at hb
        have hbc : ((acc.map Attendee.id).contains b.id) = false := by
          cases hcc : (acc.map Attendee.id).contains b.id with
          | false => rfl
          | true =>
            rw [hcc] at hb
            exact absurd hb.2 (by decide)
        have hmem : b.id ∈ acc.map Attendee.id := by
          rw [hbe, ← hxe]
          exact List.mem_map_of_mem Attendee.id hx
        have hct : (acc.map Attendee.id).contains b.id = true := List.elem_iff.mpr hmem
        rw [hct] at hbc
        exact absurd hbc (by decide)
      rw [List.foldl_cons]
      show rest.foldl attStep (some (mergeAttendeesCombine acc news)) = _
      rw [hf, ih _ hnd (fun l hl => hopts l (List.mem_cons_of_mem _ hl)),
        List.filterMap_cons]
      show _ = some (acc ++ dedupeByIdAux (acc.map Attendee.id)
        ((news :: rest.filterMap id).flatten))
      rw [List.flatten_cons, dedupeByIdAux_append news _ (acc.map Attendee.id),
        dedupeByIdAux_eq_filter news (acc.map Attendee.id) hnews]
      rw [List.append_assoc]
      congr 2
      congr 1
      apply dedupeByIdAux_congr
      intro i
      simp only [List.map_append, List.mem_append]
      tauto

theorem attStep_foldl_none : ∀ (opts : List (Option (List Attendee))),
    (∀ l, some l ∈ opts → (l.map Attendee.id).Nodup) →
    opts.foldl attStep none = combinedAttendeesSpec opts := by
  intro opts
  induction opts with
  | nil => intro h; rfl
  | cons o rest ih =>
    intro h
    cases o with
    | none =>
      rw [List.foldl_cons]
      show rest.foldl attStep none = _
      rw [ih (fun l hl => h l (List.mem_cons_of_mem _ hl))]
      unfold combinedAttendeesSpec
      simp only [List.all_cons, List.filterMap_cons, Option.isNone_none, Bool.true_and, id_eq]
    | some l0 =>
      have hl0 : (l0.map Attendee.id).Nodup := h l0 (List.mem_cons_self _ _)
      rw [List.foldl_cons]
      show rest.foldl attStep (some l0) = _
      rw [attStep_foldl_some rest l0 hl0 (fun l hl => h l (List.mem_cons_of_mem _ hl))]
      unfold combinedAttendeesSpec
      rw [if_neg (by simp [List.all_cons])]
      unfold dedupeById
      rw [List.filterMap_cons]
      show _ = some (dedupeByIdAux [] ((l0 :: rest.filterMap id).flatten))
      rw [List.flatten_cons, dedupeByIdAux_append l0 _ ([] : List Nat),
        dedupeByIdAux_eq_filter l0 ([] : List Nat) hl0,
        show (fun (a : Attendee) => !(([] : List Nat).contains a.id)) = (fun _ => true) from rfl,
        List.filter_true]
      rw [List.append_nil]

/-- C5: the mechanical merge is a left fold from the empty PartialSummary
in which the KeyFacts scalars are last-non-null-wins, attendees are the
by-id union of all inputs with the first-seen name winning, topics are the
exact concatenation of the inputs' topics in input order (so the merged
topic count is the sum of the inputs' counts — no same-titled merging),
and todos are the concatenation of the inputs' todos, present only when
at least one input had todos.  The hypothesis is the data-model invariant
that each input's attendee ids are unique. -/
theorem combine_structured_first_summaries_spec (ss : List FirstSummaryFormat)
    (h : ∀ s ∈ ss, NodupIds s.key_facts.attendees) :
    (combine_structured_first_summaries ss).topics = (ss.map (fun s => s.topics)).flatten ∧
    (combine_structured_first_summaries ss).topics.length =
      (ss.map (fun s => s.topics.length)).sum ∧
    (combine_structured_first_summaries ss).key_facts.responisible_for_moderation =
      lastSomeSpec (ss.map (fun s => s.key_facts.responisible_for_moderation)) ∧
    (combine_structured_first_summaries ss).key_facts.responisible_for_protocol =
      lastSomeSpec (ss.map (fun s => s.key_facts.responisible_for_protocol)) ∧
    (combine_structured_first_summaries ss).key_facts.responisible_for_timekeeping =
      lastSomeSpec (ss.map (fun s => s.key_facts.responisible_for_timekeeping)) ∧
    (combine_structured_first_summaries ss).key_facts.attendees =
      combinedAttendeesSpec (ss.map (fun s => s.key_facts.attendees)) ∧
    (combine_structured_first_summaries ss).todos =
      combinedTodosSpec (ss.map (fun s => s.todos)) := by
  have htopics : (combine_structured_first_summaries ss).topics =
      (ss.map (fun s => s.topics)).flatten := by
    unfold combine_structured_first_summaries
    rw [combine_foldl_topics]
    rfl
  refine ⟨htopics, ?_, ?_, ?_, ?_, ?_, ?_⟩
  · rw [htopics, List.length_flatten, List.map_map]
    rfl
  · unfold combine_structured_first_summaries
    rw [combine_foldl_moderation, foldl_or_eq_lastSome]
    exact Option.or_none
  · unfold combine_structured_first_summaries
    rw [combine_foldl_protocol, foldl_or_eq_lastSome]
    exact Option.or_none
  · unfold combine_structured_first_summaries
    rw [combine_foldl_timekeeping, foldl_or_eq_lastSome]
    exact Option.or_none
  · unfold combine_structured_first_summaries
    rw [combine_foldl_attendees]
    apply attStep_foldl_none
    intro l hl
    rw [List.mem_map] at hl
    obtain ⟨s, hs, he⟩ := hl
    have hns := h s hs
    rw [he] at hns
    exact hns
  · unfold combine_structured_first_summaries
    rw [combine_foldl_todos]
    exact foldl_todoStep_none _

/-- C5 witness: merging three concrete partial summaries gives 4 = 2+1+1
topics, by-id-unioned attendees `[{1,"A"},{2,"C"}]`, and the last
non-null moderator. -/
theorem combine_structured_first_summaries_spec_witness :
    (combine_structured_first_summaries [sum1, sum2, sum3]).topics.length = 4 ∧
    (combine_structured_first_summaries [sum1, sum2, sum3]).key_facts.attendees =
      some [⟨1, "A"⟩, ⟨2, "C"⟩] ∧
    (combine_structured_first_summaries [sum1, sum2, sum3]).key_facts.responisible_for_moderation =
      some "Bob" := by
  have h := combine_structured_first_summaries_spec [sum1, sum2, sum3] (by decide)
  refine ⟨?_, ?_, ?_⟩
  · rw [h.2.1]
    rfl
  · rw [h.2.2.2.2.2.1]
    rfl
  · rw [h.2.2.1]
    rfl

/-! ### Helper lemmas: the orchestrator (C1, C2, C3)

The concrete transcripts are `List.replicate` lists with thousands of
elements; their lengths and byte lengths are computed by lemma, never by
deep evaluation, and the pipeline oracles ignore the chunk contents, so
every remaining reduction is shallow. -/

theorem utf8Len_replicate (n : Nat) (c : Char) :
    utf8Len (List.replicate n c) = n * charUtf8Size c := by
  induction n with
  | zero => simp [utf8Len]
  | succ k ih =>
    rw [List.replicate_succ, utf8Len_cons, ih, Nat.succ_mul]
    omega

theorem utf8Len_trA : utf8Len trA = 10004 := by
  unfold trA
  rw [utf8Len_replicate]
  rfl

theorem utf8Len_trB : utf8Len trB = 10002 := by
  unfold trB
  rw [utf8Len_replicate]
  rfl

theorem trA_length : trA.length = 2501 := by
  unfold trA
  exact List.length_replicate 2501 _

theorem trB_length : trB.length = 5001 := by
  unfold trB
  exact List.length_replicate 5001 _

theorem split_trA : split_text_into_chunks trA 10000 = [trA] := by
  unfold split_text_into_chunks
  rw [if_pos (by rw [trA_length]; omega)]

theorem split_trB : split_text_into_chunks trB 10000 = [trB] := by
  unfold split_text_into_chunks
  rw [if_pos (by rw [trB_length]; omega)]

/-- Busy branch of the guard: with the marker set, the call is rejected
and the state is unchanged. -/
theorem generate_summary_busy_aux (env : Env) (st : AppState) (meeting_id other : String)
    (hb : st.currently_summarizing = some other) :
    generate_summary env st meeting_id =
      (st, .error (.ConfigError "Another summarization is running")) := by
  unfold generate_summary check_and_set_summarization_state
  rw [hb]
  rfl

/-- Dispatch of `generate_summary` from an idle state, by the transcript's
UTF-8 byte length. -/
theorem generate_summary_dispatch_aux (env : Env) (st : AppState) (meeting_id : String)
    (t : List Char)
    (hidle : st.currently_summarizing = none)
    (hemit : env.emit "summarization-started" = .ok ())
    (ht : env.transcript_result = .ok t) :
    (t = [] → generate_summary env st meeting_id =
      ({ st with currently_summarizing := some meeting_id },
        .error (.FileError "No transcript to summarize"))) ∧
    (t ≠ [] → utf8Len t ≤ 10000 → generate_summary env st meeting_id =
      ({ st with currently_summarizing := some meeting_id },
        .error (.ConfigError "Direct summarization not implemented yet"))) ∧
    (10000 < utf8Len t → generate_summary env st meeting_id =
      ({ st with currently_summarizing := some meeting_id },
        run_long_path env st.llm_config t)) := by
  have hcs : check_and_set_summarization_state env st meeting_id =
      ({ st with currently_summarizing := some meeting_id }, .ok ()) := by
    unfold check_and_set_summarization_state
    rw [hidle, hemit]
    rfl
  refine ⟨?_, ?_, ?_⟩
  · intro hte
    subst hte
    unfold generate_summary
    rw [hcs, ht]
    rfl
  · intro htne hlen
    unfold generate_summary
    rw [hcs, ht]
    cases t with
    | nil => exact absurd rfl htne
    | cons c r =>
      show (if 10000 < utf8Len (c :: r) then _ else _) = _
      rw [if_neg (by omega)]
  · intro hlen
    have htne : t ≠ [] := by
      intro hte
      subst hte
      have hz : utf8Len ([] : List Char) = 0 := rfl
      omega
    unfold generate_summary
    rw [hcs, ht]
    cases t with
    | nil => exact absurd rfl htne
    | cons c r =>
      show (if 10000 < utf8Len (c :: r) then _ else _) = _
      rw [if_pos (by omega)]

theorem run_long_path_envOK (t : List Char)
    (hsplit : split_text_into_chunks t 10000 = [t]) :
    run_long_path envOK defaultLlmConfig t = .ok fsFinalA := by
  unfold run_long_path summarize_long_transcript
  rw [show defaultLlmConfig.chunk_size = 10000 from rfl, hsplit]
  rfl

theorem run_long_path_saveChunkErr (e : String) (t : List Char)
    (hsplit : split_text_into_chunks t 10000 = [t]) :
    run_long_path (envSaveChunkErr e) defaultLlmConfig t = .error (.FileError e) := by
  unfold run_long_path summarize_long_transcript
  rw [show defaultLlmConfig.chunk_size = 10000 from rfl, hsplit]
  rfl

theorem run_long_path_saveChunkSummaryErr (e : String) (t : List Char)
    (hsplit : split_text_into_chunks t 10000 = [t]) :
    run_long_path (envSaveChunkSummaryErr e) defaultLlmConfig t = .error (.FileError e) := by
  unfold run_long_path summarize_long_transcript
  rw [show defaultLlmConfig.chunk_size = 10000 from rfl, hsplit]
  rfl

theorem run_long_path_emitErr (em : String) (t : List Char)
    (hsplit : split_text_into_chunks t 10000 = [t]) :
    run_long_path (envEmitChunkProgressErr em) defaultLlmConfig t =
      .error (.NetworkError ("Failed to emit chunk progress: " ++ em)) := by
  unfold run_long_path summarize_long_transcript
  rw [show defaultLlmConfig.chunk_size = 10000 from rfl, hsplit]
  rfl

theorem generate_summary_envOK_trA :
    generate_summary envOK st0 "m1" =
      ({ st0 with currently_summarizing := some "m1" }, .ok fsFinalA) := by
  have h := (generate_summary_dispatch_aux envOK st0 "m1" trA rfl rfl rfl).2.2
    (by rw [utf8Len_trA]; omega)
  rw [h, show st0.llm_config = defaultLlmConfig from rfl, run_long_path_envOK trA split_trA]
  rfl

theorem generate_summary_saveChunkErr_trA (e : String) :
    generate_summary (envSaveChunkErr e) st0 "m1" =
      ({ st0 with currently_summarizing := some "m1" }, .error (.FileError e)) := by
  have h := (generate_summary_dispatch_aux (envSaveChunkErr e) st0 "m1" trA rfl rfl rfl).2.2
    (by rw [utf8Len_trA]; omega)
  rw [h, show st0.llm_config = defaultLlmConfig from rfl,
    run_long_path_saveChunkErr e trA split_trA]
  rfl

theorem generate_summary_saveChunkSummaryErr_trA (e : String) :
    generate_summary (envSaveChunkSummaryErr e) st0 "m1" =
      ({ st0 with currently_summarizing := some "m1" }, .error (.FileError e)) := by
  have h := (generate_summary_dispatch_aux (envSaveChunkSummaryErr e) st0 "m1" trA
    rfl rfl rfl).2.2 (by rw [utf8Len_trA]; omega)
  rw [h, show st0.llm_config = defaultLlmConfig from rfl,
    run_long_path_saveChunkSummaryErr e trA split_trA]
  rfl

theorem generate_summary_emitErr_trA (em : String) :
    generate_summary (envEmitChunkProgressErr em) st0 "m1" =
      ({ st0 with currently_summarizing := some "m1" },
        .error (.NetworkError ("Failed to emit chunk progress: " ++ em))) := by
  have h := (generate_summary_dispatch_aux (envEmitChunkProgressErr em) st0 "m1" trA
    rfl rfl rfl).2.2 (by rw [utf8Len_trA]; omega)
  rw [h, show st0.llm_config = defaultLlmConfig from rfl,
    run_long_path_emitErr em trA split_trA]
  rfl

theorem run_long_path_envTrB :
    run_long_path (envTranscript trB) defaultLlmConfig trB = .ok fsFinalA := by
  unfold run_long_path summarize_long_transcript
  rw [show defaultLlmConfig.chunk_size = 10000 from rfl, split_trB]
  rfl

theorem generate_summary_envTrB :
    generate_summary (envTranscript trB) st0 "m1" =
      ({ st0 with currently_summarizing := some "m1" }, .ok fsFinalA) := by
  have h := (generate_summary_dispatch_aux (envTranscript trB) st0 "m1" trB rfl rfl rfl).2.2
    (by rw [utf8Len_trB]; omega)
  rw [h, show st0.llm_config = defaultLlmConfig from rfl, run_long_path_envTrB]
  rfl

/-! ### Claim theorems: orchestrator (C1, C2, C3) -/

/-- C1: while the busy marker is set, a second `generate_summary` call for
any meeting id is rejected with the busy ConfigError and the state is left
unchanged (nothing is queued); but after a fully successful run the marker
is STILL set — `generate_summary` resets `currently_summarizing` on no
exit path — so the subsequent request is rejected instead of admitted. -/
theorem generate_summary_busy_guard_never_cleared :
    (∀ (env : Env) (st : AppState) (meeting_id other : String),
      st.currently_summarizing = some other →
      generate_summary env st meeting_id =
        (st, .error (.ConfigError "Another summarization is running"))) ∧
    (generate_summary envOK st0 "m1").2 = .ok fsFinalA ∧
    (generate_summary envOK st0 "m1").1.currently_summarizing = some "m1" ∧
    (generate_summary envOK (generate_summary envOK st0 "m1").1 "m2").2 =
      .error (.ConfigError "Another summarization is running") := by
  refine ⟨generate_summary_busy_aux, ?_, ?_, ?_⟩
  · rw [generate_summary_envOK_trA]
  · rw [generate_summary_envOK_trA]
  · rw [generate_summary_envOK_trA,
      generate_summary_busy_aux envOK { st0 with currently_summarizing := some "m1" }
        "m2" "m1" rfl]

theorem generate_summary_busy_guard_witness :
    generate_summary envOK { st0 with currently_summarizing := some "m0" } "m1" =
      ({ st0 with currently_summarizing := some "m0" },
        .error (.ConfigError "Another summarization is running")) :=
  generate_summary_busy_guard_never_cleared.1 envOK
    { st0 with currently_summarizing := some "m0" } "m1" "m0" rfl

/-- C2 counterexample: with every other effect succeeding, a failing
per-chunk side-artifact write (`save_chunk` returning "disk full") is NOT
caught and ignored: it surfaces from `generate_summary` as a fatal
FileError and aborts the run. -/
theorem save_chunk_failure_aborts_run :
    (generate_summary (envSaveChunkErr "disk full") st0 "m1").2 =
      .error (.FileError "disk full") := by
  rw [generate_summary_saveChunkErr_trA]

/-- C2 amended: the per-chunk side-artifact writes (chunk text and chunk
summary JSON) and the progress emissions are on the fatal path: a failure
of either write aborts the run with that FileError, and a failed progress
emission aborts the run with a NetworkError. -/
theorem side_artifact_and_emit_failures_are_fatal (e em : String) :
    (generate_summary (envSaveChunkErr e) st0 "m1").2 = .error (.FileError e) ∧
    (generate_summary (envSaveChunkSummaryErr e) st0 "m1").2 = .error (.FileError e) ∧
    (generate_summary (envEmitChunkProgressErr em) st0 "m1").2 =
      .error (.NetworkError ("Failed to emit chunk progress: " ++ em)) := by
  refine ⟨?_, ?_, ?_⟩
  · rw [generate_summary_saveChunkErr_trA]
  · rw [generate_summary_saveChunkSummaryErr_trA]
  · rw [generate_summary_emitErr_trA]

/-- C3 counterexample: `trB` has 5001 characters — at most the claimed
10,000-character threshold — and is non-empty, yet `generate_summary`
does NOT fail with the "unsupported" ConfigError: the code compares
`transcript.len()` in UTF-8 bytes (10,002 here), so it runs the chunked
path, which in this environment succeeds. -/
theorem short_char_transcript_runs_chunked_path :
    trB.length ≤ 10000 ∧ trB ≠ [] ∧
    (generate_summary (envTranscript trB) st0 "m1").2 = .ok fsFinalA ∧
    (generate_summary (envTranscript trB) st0 "m1").2 ≠
      .error (.ConfigError "Direct summarization not implemented yet") := by
  have hok : (generate_summary (envTranscript trB) st0 "m1").2 = .ok fsFinalA := by
    rw [generate_summary_envTrB]
  refine ⟨by rw [trB_length]; omega, by decide, hok, ?_⟩
  intro hcontra
  rw [hok] at hcontra
  exact Except.noConfusion hcontra

/-- C3 amended: from an idle state the dispatch of `generate_summary` is:
empty transcript → fatal FileError; non-empty transcript of at most
10,000 UTF-8 BYTES (Rust `String::len` counts bytes, not characters) →
the explicit "unsupported" ConfigError, never the chunked path; strictly
more than 10,000 bytes → the chunked path (followed by the final saves
and the completion emission). -/
theorem generate_summary_dispatch (env : Env) (st : AppState) (meeting_id : String)
    (t : List Char)
    (hidle : st.currently_summarizing = none)
    (hemit : env.emit "summarization-started" = .ok ())
    (ht : env.transcript_result = .ok t) :
    (t = [] → generate_summary env st meeting_id =
      ({ st with currently_summarizing := some meeting_id },
        .error (.FileError "No transcript to summarize"))) ∧
    (t ≠ [] → utf8Len t ≤ 10000 → generate_summary env st meeting_id =
      ({ st with currently_summarizing := some meeting_id },
        .error (.ConfigError "Direct summarization not implemented yet"))) ∧
    (10000 < utf8Len t → generate_summary env st meeting_id =
      ({ st with currently_summarizing := some meeting_id },
        run_long_path env st.llm_config t)) :=
  generate_summary_dispatch_aux env st meeting_id t hidle hemit ht

theorem generate_summary_dispatch_witness :
    generate_summary (envTranscript []) st0 "m1" =
      ({ st0 with currently_summarizing := some "m1" },
        .error (.FileError "No transcript to summarize")) :=
  (generate_summary_dispatch (envTranscript []) st0 "m1" [] rfl rfl rfl).1 rfl

theorem side_artifact_and_emit_failures_are_fatal_witness :
    (generate_summary (envSaveChunkErr "w1") st0 "m1").2 = .error (.FileError "w1") ∧
    (generate_summary (envSaveChunkSummaryErr "w1") st0 "m1").2 = .error (.FileError "w1") ∧
    (generate_summary (envEmitChunkProgressErr "w2") st0 "m1").2 =
      .error (.NetworkError ("Failed to emit chunk progress: " ++ "w2")) :=
  side_artifact_and_emit_failures_are_fatal "w1" "w2"
